import Mathlib

/-!
Verification of the key vault and multisig address derivation subsystem of
`scripts/key_tools.py` (and the duplicated `multisig_address` in
`scripts/init_network.py`).

The Python code is shallowly embedded: bytes become `List Nat` (each element a
byte value `< 256`), Python `None` becomes `Option.none`, raised exceptions
become `Except`/`Option` error results.  External library primitives that the
scripts merely call (scrypt, AES-GCM, base64, JSON serialisation, BLAKE2b,
SS58 encode/decode from `substrateinterface`) are not code of this repository;
they are abstracted into a record of functions (`Prims`) and the theorems take
the relevant functional contracts of those primitives as pointwise hypotheses.
Everything the repository itself computes (field plumbing, validation order,
the digest input layout, sorting, the u16 little-endian threshold encoding,
hex conversion) is embedded concretely.
-/

/-! ## Byte-level helpers (concrete embeddings of Python builtins used) -/

/-- One hexadecimal digit character to its value (`bytes.fromhex` digit set:
`0-9`, `a-f`, `A-F`). -/
def hexVal (c : Char) : Option Nat :=
  if '0' ≤ c ∧ c ≤ '9' then some (c.toNat - 48)
  else if 'a' ≤ c ∧ c ≤ 'f' then some (c.toNat - 87)
  else if 'A' ≤ c ∧ c ≤ 'F' then some (c.toNat - 55)
  else none

/-- Pairwise hex parsing underlying Python's `bytes.fromhex`: two hex digits
per byte, ASCII blanks between bytes ignored, anything else rejected. -/
def hexPairs : List Char → Option (List Nat)
  | [] => some []
  | ' ' :: rest => hexPairs rest
  | c1 :: c2 :: rest =>
    match hexVal c1, hexVal c2 with
    | some hi, some lo => (hexPairs rest).map (fun bs => (hi * 16 + lo) :: bs)
    | _, _ => none
  | [_] => none

/-- Python `bytes.fromhex`. -/
def hexToBytes (s : String) : Option (List Nat) :=
  hexPairs s.data

/-- Value `0 ≤ n < 16` to its lowercase hex digit, as produced by Python's
`bytes.hex()`. -/
def hexDigit (n : Nat) : Char :=
  if n < 10 then Char.ofNat (48 + n) else Char.ofNat (87 + n)

/-- Python `bytes.hex()`: two lowercase hex digits per byte.  (Model bytes are
`< 256`, so the extra `% 16` on the high digit is inert.) -/
def bytesToHex (bs : List Nat) : String :=
  String.mk (bs.flatMap (fun b => [hexDigit (b / 16 % 16), hexDigit (b % 16)]))

/-- The byte encoding of an ASCII string literal (Python `b"..."`). -/
def asciiBytes (s : String) : List Nat :=
  s.data.map Char.toNat

/-- Python comparison on `bytes` values: ascending lexicographic order on
unsigned byte values, a proper prefix comparing below any extension. -/
def lexLe : List Nat → List Nat → Bool
  | [], _ => true
  | _ :: _, [] => false
  | a :: as, b :: bs => if a < b then true else if b < a then false else lexLe as bs

/-- The propositional form of `lexLe`, used as the sorting relation. -/
def lexRel (a b : List Nat) : Prop := lexLe a b = true

instance : DecidableRel lexRel := fun a b => by
  unfold lexRel; infer_instance

/-- Python `t.to_bytes(2, "little")`: two little-endian bytes for
`0 ≤ t ≤ 65535`, an `OverflowError` (here `none`) otherwise — in particular
for every negative `t`. -/
def intToBytesLE2 (t : Int) : Option (List Nat) :=
  if 0 ≤ t ∧ t < 65536 then some [t.toNat % 256, t.toNat / 256] else none

/-- Flip bit `i` (bit `i % 8` of byte `i / 8`) of a byte string. -/
def flipBit (i : Nat) (bs : List Nat) : List Nat :=
  bs.set (i / 8) (Nat.xor (bs.getD (i / 8) 0) (2 ^ (i % 8)))

/-! ## Data model -/

/-- The in-memory key record: the `@dataclass Key` of `key_tools.py`
(fields `scheme, network, secret_phrase, public_key_hex, ss58_address`). -/
structure Key where
  scheme : String
  network : String
  secret_phrase : Option String
  public_key_hex : Option String
  ss58_address : Option String
deriving DecidableEq

/-- The dictionary produced by `Key.to_json`: the `secret_phrase` key is
either absent (outer `none`) or present with a possibly-null value. -/
structure KeyJson where
  scheme : String
  network : String
  public_key_hex : Option String
  ss58_address : Option String
  secret_phrase : Option (Option String)
deriving DecidableEq

/-- The dictionary obtained by `json.loads` of a decrypted payload, accessed
in `Key.decrypt` via `data["scheme"]` / `data.get(...)`: every field may be
absent or null, which the `.get` accesses collapse to `none`. -/
structure PlainData where
  scheme : Option String
  network : Option String
  secret_phrase : Option String
  public_key_hex : Option String
  ss58_address : Option String
deriving DecidableEq

/-- A JSON-ish value stored under `"salt"`: `Key.decrypt` accepts either a
base64 string or raw bytes (`isinstance(blob.get("salt"), str)` test). -/
inductive SaltVal where
  | str (s : String)
  | bytes (b : List Nat)
deriving DecidableEq

/-- The `"params"` sub-dictionary of a blob; each entry may be absent. -/
structure ScryptParams where
  n : Option Nat
  r : Option Nat
  p : Option Nat
deriving DecidableEq

/-- The persisted encrypted blob dictionary.  Every key may be absent
(`none`), mirroring an arbitrary JSON object fed to `Key.decrypt`. -/
structure Blob where
  version : Option Nat
  kdf : Option String
  salt : Option SaltVal
  params : Option ScryptParams
  nonce : Option String
  ciphertext : Option String
deriving DecidableEq

/-- Vault error taxonomy (§7 of the design): `ValueError("Unsupported KDF")`
is `unsupportedKdf`; `KeyError`/`TypeError`/b64 failures on required
structure are `malformedBlob`; AES-GCM `InvalidTag` is
`authenticationFailed`. -/
inductive VaultError where
  | unsupportedKdf
  | malformedBlob
  | authenticationFailed
deriving DecidableEq

/-- Decidable equality for `Except` results (not provided by the core
library), so that concrete decryption outcomes can be checked by `decide`. -/
instance {e a : Type} [DecidableEq e] [DecidableEq a] : DecidableEq (Except e a) := fun x y =>
  match x, y with
  | .ok u, .ok v =>
    if h : u = v then isTrue (by rw [h]) else isFalse (by intro hc; cases hc; exact h rfl)
  | .error u, .error v =>
    if h : u = v then isTrue (by rw [h]) else isFalse (by intro hc; cases hc; exact h rfl)
  | .ok _, .error _ => isFalse (by intro hc; cases hc)
  | .error _, .ok _ => isFalse (by intro hc; cases hc)

/-- Multisig derivation errors: a signer address that fails to decode, or a
threshold outside the `u16` range rejected by `to_bytes(2, "little")`. -/
inductive MsigError where
  | signerDecode
  | thresholdOverflow
deriving DecidableEq

/-- The result dictionary of `multisig_address`:
`{"account_id_hex": ..., "ss58_address": ...}`. -/
structure MsigResult where
  account_id_hex : String
  ss58_address : String
deriving DecidableEq

/-- External primitives called by the scripts.  The repository does not
implement these; each theorem assumes only the pointwise functional contract
it needs (e.g. that base64 decode inverts encode on the bytes at hand). -/
structure Prims where
  /-- `Scrypt(salt, length, n, r, p).derive(password)`:
  password, salt, n, r, p, length ↦ derived key. -/
  scrypt : String → List Nat → Nat → Nat → Nat → Nat → List Nat
  /-- `AESGCM(key).encrypt(nonce, plaintext, b"")` (ciphertext includes tag). -/
  aesgcmEnc : List Nat → List Nat → List Nat → List Nat
  /-- `AESGCM(key).decrypt(nonce, ct, b"")`; `none` is `InvalidTag`. -/
  aesgcmDec : List Nat → List Nat → List Nat → Option (List Nat)
  /-- `base64.b64encode(..).decode()`. -/
  b64enc : List Nat → String
  /-- `base64.b64decode`; `none` is a `binascii` error. -/
  b64dec : String → Option (List Nat)
  /-- `json.dumps(dict).encode()` for the key-record dictionary. -/
  jsonDumps : KeyJson → List Nat
  /-- `json.loads` of a decrypted payload; `none` is a decode error. -/
  jsonLoads : List Nat → Option PlainData
  /-- `hashlib.blake2b(digest_size=32)` digest of the whole input (the
  incremental `h.update` calls concatenate). -/
  blake2b256 : List Nat → List Nat
  /-- `substrateinterface ss58_decode`: SS58 address ↦ hex public key;
  `none` is a raised decoding error. -/
  ss58Dec : String → Option String
  /-- `substrateinterface ss58_encode : (hex account id, ss58_format)`. -/
  ss58Enc : String → Nat → String

/-! ## Embedded source operations (`scripts/key_tools.py`) -/

/-- `Key.to_json(include_secret)`: the display/serialisation dictionary;
`secret_phrase` is added only when `include_secret` is true. -/
def Key.to_json (k : Key) (include_secret : Bool) : KeyJson :=
  { scheme := k.scheme
    network := k.network
    public_key_hex := k.public_key_hex
    ss58_address := k.ss58_address
    secret_phrase := if include_secret then some k.secret_phrase else none }

/-- `_aesgcm_encrypt(key, plaintext)` with the nonce draw
(`os.urandom(12)`) made an explicit argument: returns the
`(nonce_b64, ciphertext_b64)` pair of the produced dictionary. -/
def aesgcm_encrypt (P : Prims) (key nonce plaintext : List Nat) : String × String :=
  (P.b64enc nonce, P.b64enc (P.aesgcmEnc key nonce plaintext))

/-- `_aesgcm_decrypt(key, nonce_b64, ciphertext_b64)`: base64-decode the
nonce and ciphertext, then AEAD-decrypt; an `InvalidTag` surfaces as
`authenticationFailed`. -/
def aesgcm_decrypt (P : Prims) (key : List Nat) (nonce_b64 ciphertext_b64 : String) :
    Except VaultError (List Nat) :=
  match P.b64dec nonce_b64 with
  | none => .error .malformedBlob
  | some nonce =>
    match P.b64dec ciphertext_b64 with
    | none => .error .malformedBlob
    | some ct =>
      match P.aesgcmDec key nonce ct with
      | none => .error .authenticationFailed
      | some pt => .ok pt

/-- The AES-GCM ciphertext produced inside `Key.encrypt` (the payload is
`json.dumps(self.to_json(include_secret=True)).encode()`, the key is
`_kdf_scrypt(password, salt)` with its default parameters `n=2**14, r=8,
p=1, length=32`). -/
def encCt (P : Prims) (k : Key) (password : String) (salt nonce : List Nat) : List Nat :=
  P.aesgcmEnc (P.scrypt password salt (2 ^ 14) 8 1 32) nonce (P.jsonDumps (k.to_json true))

/-- `Key.encrypt(password)`, with the two random draws (`os.urandom(16)`
salt and `os.urandom(12)` nonce) made explicit arguments. -/
def Key.encrypt (P : Prims) (k : Key) (password : String) (salt nonce : List Nat) : Blob :=
  { version := some 1
    kdf := some "scrypt"
    salt := some (SaltVal.str (P.b64enc salt))
    params := some { n := some 16384, r := some 8, p := some 1 }
    nonce := some ((aesgcm_encrypt P (P.scrypt password salt (2 ^ 14) 8 1 32) nonce
      (P.jsonDumps (k.to_json true))).1)
    ciphertext := some ((aesgcm_encrypt P (P.scrypt password salt (2 ^ 14) 8 1 32) nonce
      (P.jsonDumps (k.to_json true))).2) }

/-- The salt extraction of `Key.decrypt`:
`base64.b64decode(blob["salt"]) if isinstance(blob.get("salt"), str) else blob.get("salt")`;
an absent salt flows as `None` into `Scrypt` and raises (`none`). -/
def saltBytes (P : Prims) : Option SaltVal → Option (List Nat)
  | none => none
  | some (SaltVal.str s) => P.b64dec s
  | some (SaltVal.bytes b) => some b

/-- `Key.decrypt(blob, password)`.  Order of checks follows the source: the
`kdf` test, the `params` defaults, the salt extraction, scrypt key
derivation, then `blob["nonce"]` / `blob["ciphertext"]` lookups,
`_aesgcm_decrypt`, `json.loads`, and the `data["scheme"]` access. -/
def Key.decrypt (P : Prims) (blob : Blob) (password : String) : Except VaultError Key :=
  if blob.kdf ≠ some "scrypt" then .error .unsupportedKdf
  else
    let params := blob.params.getD { n := none, r := none, p := none }
    let n := params.n.getD 16384
    let r := params.r.getD 8
    let p := params.p.getD 1
    match saltBytes P blob.salt with
    | none => .error .malformedBlob
    | some salt =>
      let key := P.scrypt password salt n r p 32
      match blob.nonce with
      | none => .error .malformedBlob
      | some nonce_b64 =>
        match blob.ciphertext with
        | none => .error .malformedBlob
        | some ciphertext_b64 =>
          match aesgcm_decrypt P key nonce_b64 ciphertext_b64 with
          | .error e => .error e
          | .ok pt =>
            match P.jsonLoads pt with
            | none => .error .malformedBlob
            | some data =>
              match data.scheme with
              | none => .error .malformedBlob
              | some sch =>
                .ok { scheme := sch
                      network := data.network.getD "substrate"
                      secret_phrase := data.secret_phrase
                      public_key_hex := data.public_key_hex
                      ss58_address := data.ss58_address }

/-- The field mapping `json.loads ∘ json.dumps` performs on a serialised key
dictionary: required keys come back as their values, the `.get` accesses
collapse an absent key and a null value to `none`. -/
def plainOf (j : KeyJson) : PlainData :=
  { scheme := some j.scheme
    network := some j.network
    secret_phrase := j.secret_phrase.bind id
    public_key_hex := j.public_key_hex
    ss58_address := j.ss58_address }

/-! ## File persistence (`Key.save`) as a file-system event trace -/

/-- File-system events performed by persistence code. -/
inductive FsOp where
  | openW (path : String)
  | write (path : String) (data : Blob)
  | close (path : String)
  | rename (src : String) (dst : String)
deriving DecidableEq

/-- Python's `with open(path, "w") as f: <body>`: the handle is opened, the
body runs, and the handle is closed on every exit path. -/
def withOpenW (path : String) (body : List FsOp) : List FsOp :=
  FsOp.openW path :: body ++ [FsOp.close path]

/-- `Key.save(path, password)` with an explicitly supplied password (the
interactive prompt branch is skipped): encrypt, then
`with open(path, "w") as f: json.dump(blob, f, indent=2)`. -/
def Key.save (P : Prims) (k : Key) (path : String) (password : String)
    (salt nonce : List Nat) : List FsOp :=
  withOpenW path [FsOp.write path (Key.encrypt P k password salt nonce)]

/-- Modelled from the spec: the "write to a temporary location, then
atomically publish" discipline §4.4 requires of `persist` — the final path
is never written directly, and the content arrives under the final name
only through a rename from a different (temporary) path. -/
def atomicPublish (tr : List FsOp) (path : String) : Prop :=
  (∀ b, FsOp.write path b ∉ tr) ∧ ∃ tmp, tmp ≠ path ∧ FsOp.rename tmp path ∈ tr

/-! ## Multisig derivation (`multisig_address`) -/

/-- The domain tag `b"modlpy/utilisig"` hashed first (key_tools.py:289). -/
def multisigTag : List Nat :=
  asciiBytes "modlpy/utilisig"

/-- One signer decode: `bytes.fromhex(ss58_decode(s))`. -/
def decodeSigner (P : Prims) (s : String) : Option (List Nat) :=
  (P.ss58Dec s).bind hexToBytes

/-- The list comprehension
`[bytes.fromhex(ss58_decode(s)) for s in signers]`: any element failure
aborts the whole computation. -/
def decodeSigners (P : Prims) : List String → Option (List (List Nat))
  | [] => some []
  | s :: rest =>
    match decodeSigner P s, decodeSigners P rest with
    | some pk, some pks => some (pk :: pks)
    | _, _ => none

/-- `multisig_address(signers, threshold, ss58_prefix)` of
`key_tools.py:277-307` (the copy in `init_network.py:55-69` is the same
computation, returning only the address component): decode, sort the raw
public keys ascending (`signer_pubkeys.sort()`, embedded as an insertion
sort — for the total antisymmetric order `lexRel` every sort returns the
same list), encode the threshold as two little-endian bytes, hash
`tag ‖ sorted keys ‖ threshold` with BLAKE2b-256, and render the digest. -/
def multisig_address (P : Prims) (signers : List String) (threshold : Int)
    (ss58_format : Nat) : Except MsigError MsigResult :=
  match decodeSigners P signers with
  | none => .error .signerDecode
  | some pks =>
    let sorted := List.insertionSort lexRel pks
    match intToBytesLE2 threshold with
    | none => .error .thresholdOverflow
    | some thr_le =>
      let account_id := P.blake2b256 (multisigTag ++ sorted.flatten ++ thr_le)
      .ok { account_id_hex := bytesToHex account_id
            ss58_address := P.ss58Enc (bytesToHex account_id) ss58_format }

/-! ## A concrete instantiation of the external primitives

The theorems below are stated over an arbitrary `Prims` bundle and assume
only pointwise functional contracts (base64 decode inverts encode on the
bytes at hand, AEAD decryption inverts encryption under the same key,
etc.).  The following toy bundle witnesses that the assumed contracts are
jointly satisfiable, so every hypothesis can be discharged on concrete
inputs. -/

/-- Toy KDF: password bytes, salt and (reduced) cost parameters, truncated.
Distinct same-length passwords yield distinct keys. -/
def toyScrypt (password : String) (salt : List Nat) (n r p klen : Nat) : List Nat :=
  (password.data.map Char.toNat ++ salt ++ [n % 256, r % 256, p % 256]).take klen

/-- Toy AEAD encryption: tag the ciphertext with the key and nonce and
duplicate the plaintext, so that any single-bit corruption is detectable. -/
def toyAesEnc (key nonce pt : List Nat) : List Nat :=
  key ++ nonce ++ pt ++ pt

/-- Toy AEAD decryption: check the key/nonce tag and the duplicated
plaintext halves; reject anything that does not match. -/
def toyAesDec (key nonce ct : List Nat) : Option (List Nat) :=
  let hdr := key ++ nonce
  if ct.take hdr.length = hdr then
    let rest := ct.drop hdr.length
    if rest.length % 2 = 0 ∧ rest.take (rest.length / 2) = rest.drop (rest.length / 2) then
      some (rest.take (rest.length / 2))
    else none
  else none

/-- Length-prefixed string serialisation for the toy JSON codec. -/
def encodeStr (s : String) : List Nat :=
  s.length :: s.data.map Char.toNat

def decodeStr : List Nat → Option (String × List Nat)
  | [] => none
  | n :: rest =>
    if n ≤ rest.length then
      some (String.mk ((rest.take n).map Char.ofNat), rest.drop n)
    else none

def encodeOptStr : Option String → List Nat
  | none => [0]
  | some s => 1 :: encodeStr s

def decodeOptStr : List Nat → Option (Option String × List Nat)
  | 0 :: rest => some (none, rest)
  | 1 :: rest => (decodeStr rest).map (fun q => (some q.1, q.2))
  | _ => none

def encodeOpt2 : Option (Option String) → List Nat
  | none => [0]
  | some x => 1 :: encodeOptStr x

def decodeOpt2 : List Nat → Option (Option (Option String) × List Nat)
  | 0 :: rest => some (none, rest)
  | 1 :: rest => (decodeOptStr rest).map (fun q => (some q.1, q.2))
  | _ => none

/-- Toy `json.dumps` of a key-record dictionary. -/
def toyJsonDumps (j : KeyJson) : List Nat :=
  encodeStr j.scheme ++ encodeStr j.network ++ encodeOptStr j.public_key_hex ++
    encodeOptStr j.ss58_address ++ encodeOpt2 j.secret_phrase

/-- Toy `json.loads`, producing the `.get`-collapsed view of the fields. -/
def toyJsonLoads (l : List Nat) : Option PlainData := do
  let (sch, r1) ← decodeStr l
  let (net, r2) ← decodeStr r1
  let (pk, r3) ← decodeOptStr r2
  let (ss, r4) ← decodeOptStr r3
  let (sec, _) ← decodeOpt2 r4
  pure { scheme := some sch, network := some net, secret_phrase := sec.bind id,
         public_key_hex := pk, ss58_address := ss }

/-- Toy 32-byte hash: truncate/pad. -/
def toyBlake (msg : List Nat) : List Nat :=
  (msg ++ List.replicate 32 0).take 32

/-- Toy SS58 decode: every address yields the hex of a 32-byte key derived
from its characters. -/
def toySs58Dec (s : String) : Option String :=
  some (bytesToHex ((s.data.map Char.toNat ++ List.replicate 32 0).take 32))

def toySs58Enc (hexAccount : String) (fmtCode : Nat) : String :=
  String.append (String.append "addr" (bytesToHex [fmtCode % 256])) hexAccount

/-- The toy primitive bundle (base64 is modelled by hex, which round-trips
on byte values). -/
def toyPrims : Prims :=
  { scrypt := toyScrypt
    aesgcmEnc := toyAesEnc
    aesgcmDec := toyAesDec
    b64enc := bytesToHex
    b64dec := hexToBytes
    jsonDumps := toyJsonDumps
    jsonLoads := toyJsonLoads
    blake2b256 := toyBlake
    ss58Dec := toySs58Dec
    ss58Enc := toySs58Enc }

/-- A concrete key record for witnesses. -/
def k0 : Key :=
  { scheme := "sr25519", network := "substrate", secret_phrase := some "seed",
    public_key_hex := some "ab", ss58_address := some "5X" }

/-- A concrete 16-byte salt. -/
def salt0 : List Nat := List.replicate 16 7

/-- A concrete 12-byte nonce. -/
def nonce0 : List Nat := List.replicate 12 9

/-- The 32-byte key that the toy SS58 decode assigns to the address "A". -/
def pkA : List Nat := 65 :: List.replicate 31 0

/-! ## Order facts about the byte-string comparison -/

theorem lexLe_total : ∀ a b : List Nat, lexLe a b = true ∨ lexLe b a = true
  | [], _ => Or.inl rfl
  | _ :: _, [] => Or.inr rfl
  | a :: as, b :: bs => by
    rcases Nat.lt_trichotomy a b with hab | hab | hab
    · left; simp [lexLe, hab]
    · subst hab
      rcases lexLe_total as bs with h | h
      · left; simp [lexLe, h]
      · right; simp [lexLe, h]
    · right; simp [lexLe, hab]

theorem lexLe_trans : ∀ a b c : List Nat,
    lexLe a b = true → lexLe b c = true → lexLe a c = true
  | [], _, _, _, _ => rfl
  | _ :: _, [], _, h1, _ => by simp [lexLe] at h1
  | _ :: _, _ :: _, [], _, h2 => by simp [lexLe] at h2
  | a :: as, b :: bs, c :: cs, h1, h2 => by
    simp only [lexLe] at h1 h2 ⊢
    split_ifs at h1 h2 ⊢ <;>
      first
        | rfl
        | exact lexLe_trans as bs cs h1 h2
        | omega

theorem lexLe_antisymm : ∀ a b : List Nat,
    lexLe a b = true → lexLe b a = true → a = b
  | [], [], _, _ => rfl
  | [], _ :: _, _, h2 => by simp [lexLe] at h2
  | _ :: _, [], h1, _ => by simp [lexLe] at h1
  | a :: as, b :: bs, h1, h2 => by
    simp only [lexLe] at h1 h2
    split_ifs at h1 h2 <;>
      first
        | omega
        | (have hab : a = b := by omega
           rw [hab, lexLe_antisymm as bs h1 h2])

instance : IsTotal (List Nat) lexRel := ⟨lexLe_total⟩

instance : IsTrans (List Nat) lexRel := ⟨lexLe_trans⟩

instance : IsAntisymm (List Nat) lexRel := ⟨lexLe_antisymm⟩

/-- Any two permutation-equal inputs sort to the same list: `lexRel` is a
total antisymmetric order, so the sorted permutation is unique.  (This is
also why the insertion sort in the embedding is a faithful stand-in for
Python's `list.sort`.) -/
theorem insertionSort_eq_of_perm {l1 l2 : List (List Nat)} (h : l1.Perm l2) :
    List.insertionSort lexRel l1 = List.insertionSort lexRel l2 :=
  List.eq_of_perm_of_sorted
    ((List.perm_insertionSort lexRel l1).trans (h.trans (List.perm_insertionSort lexRel l2).symm))
    (List.sorted_insertionSort lexRel l1)
    (List.sorted_insertionSort lexRel l2)

/-! ## Permutation facts about signer decoding -/

theorem decodeSigners_eq_none_iff (P : Prims) :
    ∀ s : List String, decodeSigners P s = none ↔ ∃ x ∈ s, decodeSigner P x = none := by
  intro s
  induction s with
  | nil => simp [decodeSigners]
  | cons x rest ih =>
    cases hx : decodeSigner P x <;> cases ht : decodeSigners P rest <;>
      simp_all [decodeSigners, hx, ht]

theorem decodeSigners_perm_some (P : Prims) {s1 s2 : List String} (h : s1.Perm s2) :
    ∀ {l1}, decodeSigners P s1 = some l1 →
      ∃ l2, decodeSigners P s2 = some l2 ∧ l1.Perm l2 := by
  induction h with
  | nil =>
    intro l1 h1
    exact ⟨l1, h1, List.Perm.refl l1⟩
  | cons x h ih =>
    rename_i t1 t2
    intro l1 h1
    cases hx : decodeSigner P x with
    | none => simp [decodeSigners, hx] at h1
    | some pk =>
      cases ht : decodeSigners P t1 with
      | none => simp [decodeSigners, hx, ht] at h1
      | some pks =>
        simp only [decodeSigners, hx, ht, Option.some.injEq] at h1
        subst h1
        obtain ⟨r2, hr2, hperm⟩ := ih ht
        exact ⟨pk :: r2, by simp [decodeSigners, hx, hr2], List.Perm.cons pk hperm⟩
  | swap x y t =>
    intro l1 h1
    cases hy : decodeSigner P y with
    | none => simp [decodeSigners, hy] at h1
    | some pky =>
      cases hx : decodeSigner P x with
      | none => simp [decodeSigners, hx, hy] at h1
      | some pkx =>
        cases ht : decodeSigners P t with
        | none => simp [decodeSigners, hx, hy, ht] at h1
        | some pks =>
          simp only [decodeSigners, hx, hy, ht, Option.some.injEq] at h1
          subst h1
          exact ⟨pkx :: pky :: pks, by simp [decodeSigners, hx, hy, ht],
            List.Perm.swap pkx pky pks⟩
  | trans h12 h23 ih12 ih23 =>
    intro l1 h1
    obtain ⟨l2, h2, p12⟩ := ih12 h1
    obtain ⟨l3, h3, p23⟩ := ih23 h2
    exact ⟨l3, h3, p12.trans p23⟩

/-- `intToBytesLE2` on an in-range threshold. -/
theorem intToBytesLE2_eq_some {t : Int} (h0 : 0 ≤ t) (h1 : t < 65536) :
    intToBytesLE2 t = some [t.toNat % 256, t.toNat / 256] := by
  simp [intToBytesLE2, h0, h1]

/-! ## Claims -/

/-- Claim C5: the multisig derivation depends only on the signer multiset
and the threshold — permuting the signer list leaves the result (account id
and address, or the error) unchanged, and a repeated call with the same
arguments yields the identical result (the embedding is a pure function, so
determinism is definitional). -/
theorem multisig_order_independence (P : Prims) (s1 s2 : List String) (t : Int)
    (fmtCode : Nat) (hperm : s1.Perm s2) :
    multisig_address P s1 t fmtCode = multisig_address P s2 t fmtCode ∧
      multisig_address P s1 t fmtCode = multisig_address P s1 t fmtCode := by
  refine ⟨?_, rfl⟩
  unfold multisig_address
  cases h1 : decodeSigners P s1 with
  | none =>
    have h2 : decodeSigners P s2 = none := by
      rw [decodeSigners_eq_none_iff] at h1 ⊢
      obtain ⟨x, hx, hdx⟩ := h1
      exact ⟨x, hperm.mem_iff.mp hx, hdx⟩
    rw [h2]
  | some l1 =>
    obtain ⟨l2, h2, p12⟩ := decodeSigners_perm_some P hperm h1
    rw [h2]
    simp only [insertionSort_eq_of_perm p12]

/-- Witness for C5 at a concrete permuted pair of signer lists. -/
theorem multisig_order_independence_witness :
    multisig_address toyPrims ["B", "A"] 2 42 = multisig_address toyPrims ["A", "B"] 2 42 ∧
      multisig_address toyPrims ["B", "A"] 2 42 = multisig_address toyPrims ["B", "A"] 2 42 :=
  multisig_order_independence toyPrims ["B", "A"] ["A", "B"] 2 42 (List.Perm.swap "A" "B" [])

/-- Claim C9: the display form with `include_secret = False` contains no
`secret_phrase` entry, and is identical for any two keys that differ only in
their secret phrase. -/
theorem to_json_never_leaks_secret (scheme network : String) (pk ss : Option String)
    (s1 s2 : Option String) :
    Key.to_json ⟨scheme, network, s1, pk, ss⟩ false =
        Key.to_json ⟨scheme, network, s2, pk, ss⟩ false ∧
      (Key.to_json ⟨scheme, network, s1, pk, ss⟩ false).secret_phrase = none :=
  ⟨rfl, rfl⟩

/-- Counterexample to claim C1 as stated: with a single decodable signer,
threshold 0 and threshold 2 = len(signers)+1 both succeed and return an
account id — `multisig_address` has no `InvalidThreshold` validation at
all. -/
theorem multisig_no_threshold_validation_cex :
    (multisig_address toyPrims ["A"] 0 42).isOk = true ∧
      (multisig_address toyPrims ["A"] 2 42).isOk = true := by
  exact ⟨by decide, by decide⟩

/-- Claim C1 amended: `multisig_address` performs no threshold-versus-signer
count validation.  For any signer list whose addresses decode, both
threshold 0 and threshold `len(signers) + 1` succeed and return an account
id (the only threshold restriction is the `u16` range of
`to_bytes(2, "little")`). -/
theorem multisig_no_threshold_validation (P : Prims) (signers : List String)
    (pks : List (List Nat)) (fmtCode : Nat)
    (hdec : decodeSigners P signers = some pks)
    (hlen : signers.length + 1 ≤ 65535) :
    (∃ res, multisig_address P signers 0 fmtCode = .ok res) ∧
      ∃ res, multisig_address P signers ((signers.length : Int) + 1) fmtCode = .ok res := by
  unfold multisig_address
  rw [hdec]
  constructor
  · rw [intToBytesLE2_eq_some (by omega) (by omega)]
    exact ⟨_, rfl⟩
  · rw [intToBytesLE2_eq_some (by omega) (by omega)]
    exact ⟨_, rfl⟩

/-- Witness for the amended C1 at a concrete one-signer list. -/
theorem multisig_no_threshold_validation_witness :
    (∃ res, multisig_address toyPrims ["A"] 0 7 = .ok res) ∧
      ∃ res, multisig_address toyPrims ["A"] (((["A"] : List String).length : Int) + 1) 7 = .ok res :=
  multisig_no_threshold_validation toyPrims ["A"] [pkA] 7 (by decide) (by decide)

/-- Claim C10: for a signer list whose addresses decode to 32-byte keys
(the empty list and duplicate entries included), `multisig_address`
succeeds for every threshold in `0..65535` and returns a 32-byte account
id, and fails (the `to_bytes(2, "little")` conversion raises) for every
threshold below 0 or above 65535; no other threshold validation occurs. -/
theorem multisig_threshold_range (P : Prims) (signers : List String)
    (pks : List (List Nat)) (t : Int) (fmtCode : Nat)
    (hdec : decodeSigners P signers = some pks)
    (h32 : ∀ bs ∈ pks, bs.length = 32)
    (hH : (P.blake2b256 (multisigTag ++ (List.insertionSort lexRel pks).flatten ++
      [t.toNat % 256, t.toNat / 256])).length = 32) :
    (0 ≤ t ∧ t ≤ 65535 →
      ∃ acct, multisig_address P signers t fmtCode =
          .ok { account_id_hex := bytesToHex acct,
                ss58_address := P.ss58Enc (bytesToHex acct) fmtCode } ∧
        acct.length = 32) ∧
    ((t < 0 ∨ 65535 < t) →
      multisig_address P signers t fmtCode = .error .thresholdOverflow) := by
  unfold multisig_address
  rw [hdec]
  constructor
  · rintro ⟨h0, h1⟩
    rw [intToBytesLE2_eq_some h0 (by omega)]
    exact ⟨_, rfl, hH⟩
  · intro h
    have hnone : intToBytesLE2 t = none := by
      unfold intToBytesLE2
      rw [if_neg (by omega)]
    rw [hnone]

/-- Witness for C10 at a duplicate-signer list and threshold 3. -/
theorem multisig_threshold_range_witness :
    (0 ≤ (3 : Int) ∧ (3 : Int) ≤ 65535 →
      ∃ acct, multisig_address toyPrims ["A", "A"] 3 42 =
          .ok { account_id_hex := bytesToHex acct,
                ss58_address := toyPrims.ss58Enc (bytesToHex acct) 42 } ∧
        acct.length = 32) ∧
    ((3 : Int) < 0 ∨ 65535 < (3 : Int) →
      multisig_address toyPrims ["A", "A"] 3 42 = .error .thresholdOverflow) :=
  multisig_threshold_range toyPrims ["A", "A"] [pkA, pkA] 3 42 (by decide) (by decide) (by decide)

/-- Counterexample to claim C2 as stated: the domain tag the code hashes is
the ASCII encoding of `"modlpy/utilisig"`, which is 15 bytes — there is no
16-byte ASCII encoding of that tag, so the claimed digest input does not
exist. -/
theorem multisig_tag_is_15_bytes_cex :
    multisigTag = asciiBytes "modlpy/utilisig" ∧ multisigTag.length = 15 ∧
      ¬ multisigTag.length = 16 :=
  ⟨rfl, by decide, by decide⟩

/-- Claim C2 amended: for decodable signer keys and an in-range threshold,
the derived account id is the BLAKE2b digest (configured for a 32-byte
output) of the 15-byte ASCII domain tag `"modlpy/utilisig"`, followed by
the signer keys concatenated in ascending lexicographic (unsigned byte)
order, followed by the threshold as an unsigned 16-bit little-endian
integer. -/
theorem multisig_digest_structure (P : Prims) (signers : List String)
    (pks : List (List Nat)) (t : Int) (fmtCode : Nat)
    (hdec : decodeSigners P signers = some pks)
    (h0 : 0 ≤ t) (h1 : t ≤ 65535) :
    multisig_address P signers t fmtCode =
        .ok { account_id_hex := bytesToHex (P.blake2b256 (multisigTag ++
                (List.insertionSort lexRel pks).flatten ++ [t.toNat % 256, t.toNat / 256])),
              ss58_address := P.ss58Enc (bytesToHex (P.blake2b256 (multisigTag ++
                (List.insertionSort lexRel pks).flatten ++
                [t.toNat % 256, t.toNat / 256]))) fmtCode } ∧
      (List.insertionSort lexRel pks).Perm pks ∧
      List.Sorted lexRel (List.insertionSort lexRel pks) ∧
      multisigTag = asciiBytes "modlpy/utilisig" ∧
      multisigTag.length = 15 := by
  refine ⟨?_, List.perm_insertionSort lexRel pks, List.sorted_insertionSort lexRel pks,
    rfl, by decide⟩
  unfold multisig_address
  rw [hdec, intToBytesLE2_eq_some h0 (by omega)]

/-- Witness for the amended C2 at a concrete signer and threshold 2. -/
theorem multisig_digest_structure_witness :
    multisig_address toyPrims ["A"] 2 42 =
      .ok { account_id_hex := bytesToHex (toyPrims.blake2b256 (multisigTag ++
              (List.insertionSort lexRel [pkA]).flatten ++
              [(2 : Int).toNat % 256, (2 : Int).toNat / 256])),
            ss58_address := toyPrims.ss58Enc (bytesToHex (toyPrims.blake2b256 (multisigTag ++
              (List.insertionSort lexRel [pkA]).flatten ++
              [(2 : Int).toNat % 256, (2 : Int).toNat / 256]))) 42 } :=
  (multisig_digest_structure toyPrims ["A"] [pkA] 2 42 (by decide) (by decide) (by decide)).1

/-- Claim C6: for every key record and password, `Key.encrypt` emits a blob
of exactly the form `{version: 1, kdf: "scrypt", salt, params: {n: 16384,
r: 8, p: 1}, nonce, ciphertext}` with base64-encoded binary fields, where
the salt is the base64 of a 16-byte value and the nonce the base64 of a
12-byte value (the lengths of the two `os.urandom` draws). -/
theorem encrypt_blob_shape (P : Prims) (k : Key) (password : String)
    (salt nonce : List Nat) (hs : salt.length = 16) (hn : nonce.length = 12) :
    Key.encrypt P k password salt nonce =
        { version := some 1, kdf := some "scrypt",
          salt := some (SaltVal.str (P.b64enc salt)),
          params := some { n := some 16384, r := some 8, p := some 1 },
          nonce := some (P.b64enc nonce),
          ciphertext := some (P.b64enc (encCt P k password salt nonce)) } ∧
      (∃ s, (Key.encrypt P k password salt nonce).salt = some (SaltVal.str (P.b64enc s)) ∧
        s.length = 16) ∧
      ∃ m, (Key.encrypt P k password salt nonce).nonce = some (P.b64enc m) ∧
        m.length = 12 :=
  ⟨rfl, ⟨salt, rfl, hs⟩, ⟨nonce, rfl, hn⟩⟩

/-- Witness for C6 at concrete 16-byte salt and 12-byte nonce draws. -/
theorem encrypt_blob_shape_witness :
    Key.encrypt toyPrims k0 "pw" salt0 nonce0 =
        { version := some 1, kdf := some "scrypt",
          salt := some (SaltVal.str (toyPrims.b64enc salt0)),
          params := some { n := some 16384, r := some 8, p := some 1 },
          nonce := some (toyPrims.b64enc nonce0),
          ciphertext := some (toyPrims.b64enc (encCt toyPrims k0 "pw" salt0 nonce0)) } ∧
      (∃ s, (Key.encrypt toyPrims k0 "pw" salt0 nonce0).salt =
          some (SaltVal.str (toyPrims.b64enc s)) ∧ s.length = 16) ∧
      ∃ m, (Key.encrypt toyPrims k0 "pw" salt0 nonce0).nonce =
          some (toyPrims.b64enc m) ∧ m.length = 12 :=
  encrypt_blob_shape toyPrims k0 "pw" salt0 nonce0 (by decide) (by decide)

/-- Claim C3: vault round trip — decrypting an encrypted key record with
the same password restores the record exactly.  The hypotheses are the
pointwise contracts of the external primitives on the values involved:
base64 decode inverts encode, AES-GCM decryption with the same key and
nonce inverts encryption, and `json.loads` inverts `json.dumps`. -/
theorem vault_roundtrip (P : Prims) (k : Key) (password : String) (salt nonce : List Nat)
    (hb64salt : P.b64dec (P.b64enc salt) = some salt)
    (hb64nonce : P.b64dec (P.b64enc nonce) = some nonce)
    (hb64ct : P.b64dec (P.b64enc (encCt P k password salt nonce)) =
      some (encCt P k password salt nonce))
    (haes : P.aesgcmDec (P.scrypt password salt (2 ^ 14) 8 1 32) nonce
        (encCt P k password salt nonce) = some (P.jsonDumps (k.to_json true)))
    (hjson : P.jsonLoads (P.jsonDumps (k.to_json true)) = some (plainOf (k.to_json true))) :
    Key.decrypt P (Key.encrypt P k password salt nonce) password = .ok k := by
  obtain ⟨ks, kn, ksec, kpk, kss⟩ := k
  have hpow : (2 : Nat) ^ 14 = 16384 := by norm_num
  simp only [encCt, hpow] at hb64ct haes
  simp [Key.to_json] at hb64ct haes
  simp [Key.to_json, plainOf] at hjson
  simp [Key.decrypt, Key.encrypt, aesgcm_encrypt, aesgcm_decrypt, saltBytes, Key.to_json,
    hpow, hb64salt, hb64nonce, hb64ct, haes, hjson]

/-- Witness for C3 at a concrete key record, password, salt and nonce. -/
theorem vault_roundtrip_witness :
    Key.decrypt toyPrims (Key.encrypt toyPrims k0 "pw" salt0 nonce0) "pw" = .ok k0 :=
  vault_roundtrip toyPrims k0 "pw" salt0 nonce0 (by decide) (by decide) (by decide)
    (by decide) (by decide)

/-- Any well-formed blob whose AEAD decryption rejects yields
`authenticationFailed` from `Key.decrypt` — the tag failure is surfaced
as-is, never as a partially decoded key record. -/
theorem decrypt_blob_authfail (P : Prims) (password : String) (salt nonce ct : List Nat)
    (sb64 nb64 cb64 : String)
    (hs : P.b64dec sb64 = some salt)
    (hn : P.b64dec nb64 = some nonce)
    (hc : P.b64dec cb64 = some ct)
    (hdec : P.aesgcmDec (P.scrypt password salt 16384 8 1 32) nonce ct = none) :
    Key.decrypt P
        { version := some 1, kdf := some "scrypt",
          salt := some (SaltVal.str sb64),
          params := some { n := some 16384, r := some 8, p := some 1 },
          nonce := some nb64, ciphertext := some cb64 } password =
      .error .authenticationFailed := by
  simp [Key.decrypt, saltBytes, aesgcm_decrypt, hs, hn, hc, hdec]

/-- Claim C4: decrypting with a different password than the one used for
encryption fails with `authenticationFailed`, and so does decrypting a blob
whose (base64-decoded) ciphertext had any single bit flipped — in both
cases no key record is returned.  The AEAD rejection itself
(`P.aesgcmDec ... = none`) is the cryptographic contract of AES-GCM under a
wrong key / corrupted ciphertext and enters as a hypothesis. -/
theorem vault_wrong_password_and_tamper (P : Prims) (k : Key) (pw1 pw2 : String)
    (salt nonce : List Nat)
    (hpw : pw1 ≠ pw2)
    (hb64salt : P.b64dec (P.b64enc salt) = some salt)
    (hb64nonce : P.b64dec (P.b64enc nonce) = some nonce) :
    (P.b64dec (P.b64enc (encCt P k pw1 salt nonce)) = some (encCt P k pw1 salt nonce) →
      P.aesgcmDec (P.scrypt pw2 salt 16384 8 1 32) nonce (encCt P k pw1 salt nonce) = none →
      Key.decrypt P (Key.encrypt P k pw1 salt nonce) pw2 = .error .authenticationFailed) ∧
    ∀ i, i < 8 * (encCt P k pw1 salt nonce).length →
      P.b64dec (P.b64enc (flipBit i (encCt P k pw1 salt nonce))) =
        some (flipBit i (encCt P k pw1 salt nonce)) →
      P.aesgcmDec (P.scrypt pw1 salt 16384 8 1 32) nonce
          (flipBit i (encCt P k pw1 salt nonce)) = none →
      Key.decrypt P
          { Key.encrypt P k pw1 salt nonce with
            ciphertext := some (P.b64enc (flipBit i (encCt P k pw1 salt nonce))) } pw1 =
        .error .authenticationFailed := by
  constructor
  · intro hct hdec
    exact decrypt_blob_authfail P pw2 salt nonce (encCt P k pw1 salt nonce)
      (P.b64enc salt) (P.b64enc nonce) (P.b64enc (encCt P k pw1 salt nonce))
      hb64salt hb64nonce hct hdec
  · intro i _ hct hdec
    exact decrypt_blob_authfail P pw1 salt nonce (flipBit i (encCt P k pw1 salt nonce))
      (P.b64enc salt) (P.b64enc nonce) (P.b64enc (flipBit i (encCt P k pw1 salt nonce)))
      hb64salt hb64nonce hct hdec

/-- Witness for C4: wrong password at a concrete vault, and bit 5 of the
concrete ciphertext flipped. -/
theorem vault_wrong_password_and_tamper_witness :
    Key.decrypt toyPrims (Key.encrypt toyPrims k0 "pw1" salt0 nonce0) "pw2" =
        .error .authenticationFailed ∧
      Key.decrypt toyPrims
          { Key.encrypt toyPrims k0 "pw1" salt0 nonce0 with
            ciphertext := some (toyPrims.b64enc (flipBit 5 (encCt toyPrims k0 "pw1" salt0 nonce0))) }
        "pw1" = .error .authenticationFailed :=
  ⟨(vault_wrong_password_and_tamper toyPrims k0 "pw1" "pw2" salt0 nonce0 (by decide)
      (by decide) (by decide)).1 (by decide) (by decide),
    (vault_wrong_password_and_tamper toyPrims k0 "pw1" "pw2" salt0 nonce0 (by decide)
      (by decide) (by decide)).2 5 (by decide) (by decide) (by decide)⟩

/-- Counterexample to claim C7 as stated: a blob with the `params` field
entirely missing is *not* rejected as malformed — `Key.decrypt` silently
substitutes the defaults `n=16384, r=8, p=1` and succeeds. -/
theorem decrypt_missing_params_ok_cex :
    ({ Key.encrypt toyPrims k0 "pw" salt0 nonce0 with params := none } : Blob).params = none ∧
      Key.decrypt toyPrims { Key.encrypt toyPrims k0 "pw" salt0 nonce0 with params := none }
        "pw" = .ok k0 :=
  ⟨rfl, by decide⟩

/-- Claim C7 amended: `Key.decrypt` raises `unsupportedKdf` whenever the
blob's `kdf` field is not `"scrypt"` (including when it is absent), and
raises `malformedBlob` when the `salt`, `nonce` or `ciphertext` field is
missing (or the salt fails to decode); a missing `params` field is
tolerated and replaced by the default scrypt parameters (see the
counterexample).  In every error case no key record is returned. -/
theorem decrypt_error_taxonomy (P : Prims) (blob : Blob) (password : String) :
    (blob.kdf ≠ some "scrypt" → Key.decrypt P blob password = .error .unsupportedKdf) ∧
    (blob.kdf = some "scrypt" → saltBytes P blob.salt = none →
      Key.decrypt P blob password = .error .malformedBlob) ∧
    (blob.kdf = some "scrypt" → blob.nonce = none →
      (∃ s, saltBytes P blob.salt = some s) →
      Key.decrypt P blob password = .error .malformedBlob) ∧
    (blob.kdf = some "scrypt" → blob.ciphertext = none →
      (∃ s, saltBytes P blob.salt = some s) → (∃ nb, blob.nonce = some nb) →
      Key.decrypt P blob password = .error .malformedBlob) := by
  refine ⟨?_, ?_, ?_, ?_⟩
  · intro hkdf
    unfold Key.decrypt
    rw [if_pos hkdf]
  · intro hkdf hsalt
    unfold Key.decrypt
    rw [if_neg (by simp [hkdf]), hsalt]
  · rintro hkdf hnonce ⟨s, hs⟩
    unfold Key.decrypt
    rw [if_neg (by simp [hkdf]), hs, hnonce]
  · rintro hkdf hct ⟨s, hs⟩ ⟨nb, hnb⟩
    unfold Key.decrypt
    rw [if_neg (by simp [hkdf]), hs, hnb, hct]

/-- Witness for the amended C7 on four concrete malformed blobs. -/
theorem decrypt_error_taxonomy_witness :
    Key.decrypt toyPrims
        { Key.encrypt toyPrims k0 "pw" salt0 nonce0 with kdf := some "pbkdf2" } "pw" =
      .error .unsupportedKdf ∧
    Key.decrypt toyPrims
        { Key.encrypt toyPrims k0 "pw" salt0 nonce0 with salt := none } "pw" =
      .error .malformedBlob ∧
    Key.decrypt toyPrims
        { Key.encrypt toyPrims k0 "pw" salt0 nonce0 with nonce := none } "pw" =
      .error .malformedBlob ∧
    Key.decrypt toyPrims
        { Key.encrypt toyPrims k0 "pw" salt0 nonce0 with ciphertext := none } "pw" =
      .error .malformedBlob :=
  ⟨(decrypt_error_taxonomy toyPrims _ "pw").1 (by decide),
    (decrypt_error_taxonomy toyPrims _ "pw").2.1 rfl rfl,
    (decrypt_error_taxonomy toyPrims _ "pw").2.2.1 rfl rfl ⟨salt0, by decide⟩,
    (decrypt_error_taxonomy toyPrims _ "pw").2.2.2 rfl rfl ⟨salt0, by decide⟩ ⟨_, rfl⟩⟩

/-- Counterexample to claim C8 as stated: the trace of `Key.save` never
uses a temporary file and a rename — it writes the blob directly at the
final path. -/
theorem save_not_atomic_cex :
    ¬ atomicPublish (Key.save toyPrims k0 "key.json" "pw" salt0 nonce0) "key.json" := by
  intro h
  exact h.1 (Key.encrypt toyPrims k0 "pw" salt0 nonce0) (by simp [Key.save, withOpenW])

/-- Claim C8 amended: `Key.save` opens the final path directly and writes
the encrypted blob there (no temporary file, no rename anywhere in its
trace), so a partially written file can be visible under the final name;
the `with open(...)` block does guarantee that the handle is closed at the
end of every trace, whatever the body did. -/
theorem save_direct_write (P : Prims) (k : Key) (path password : String)
    (salt nonce : List Nat) :
    Key.save P k path password salt nonce =
        [FsOp.openW path, FsOp.write path (Key.encrypt P k password salt nonce),
          FsOp.close path] ∧
      (∀ src dst, FsOp.rename src dst ∉ Key.save P k path password salt nonce) ∧
      ∀ body, (withOpenW path body).head? = some (FsOp.openW path) ∧
        (withOpenW path body).getLast? = some (FsOp.close path) := by
  refine ⟨rfl, ?_, ?_⟩
  · intro src dst h
    simp [Key.save, withOpenW] at h
  · intro body
    refine ⟨rfl, ?_⟩
    show (FsOp.openW path :: (body ++ [FsOp.close path])).getLast? = some (FsOp.close path)
    rw [← List.cons_append, List.getLast?_concat]
